import Mathlib

/-!
Verification of the PyMinitel core: a shallow embedding of
`minitel/Sequence.py` (canonicalisation of heterogeneous inputs into flat
byte lists) and of the protocol operations of `minitel/Minitel.py`
(sequence framing, mode switching, speed programming, character
redefinition), together with theorems settling the specified properties.

Conventions of the embedding:
- Python's dynamically typed values that `Sequence` accepts are the
  inductive type `Valeur` (an unbounded integer, a text, a nested list,
  or a `Sequence` object represented by its `valeurs` list).
- Stateful methods of the `Minitel` class are pure functions from their
  inputs and an explicit model of the environment (the queue of inbound
  read outcomes, or the device's reply to each transaction) to their
  result together with the observable effects (bytes sent, transactions
  issued, state fields after the call).
- A raised Python exception is an `Except.error`.
-/

/-! ## Protocol constants

`minitel/Minitel.py` imports these from `minitel/constantes.py`, a file of
the repository that is not part of the sources given here.  Modelled from
the spec: the spec's external-interface section fixes the introducer and
protocol bytes (Escape, CSI = Escape + 0x5b, SS2, SEP, the PRO1/PRO2/PRO3
command prefixes, speed codes, fixed acknowledgment lengths); the byte
values below follow the standard videotex terminal protocol tables the
spec refers to.  None of the theorems below depend on the particular
value of a constant whose value the spec leaves open. -/

/-- Modelled from the spec: SS2 introducer byte (2-byte frames). -/
def SS2 : Int := 0x19

/-- Modelled from the spec: SEP introducer byte (2-byte frames). -/
def SEP : Int := 0x13

/-- Modelled from the spec: the Escape byte. -/
def ESC : Int := 0x1b

/-- Modelled from the spec: the CSI introducer, Escape followed by 0x5b.
In the Python source `CSI` is a list of two ints. -/
def CSI : List Int := [0x1b, 0x5b]

/-- Modelled from the spec: PRO1 protocol command prefix. -/
def PRO1 : List Int := [0x1b, 0x39]

/-- Modelled from the spec: PRO2 protocol command prefix. -/
def PRO2 : List Int := [0x1b, 0x3a]

/-- Modelled from the spec: PRO3 protocol command prefix. -/
def PRO3 : List Int := [0x1b, 0x3b]

/-- Modelled from the spec: length of a PRO2 acknowledgment. -/
def LONGUEUR_PRO2 : Nat := 4

/-- Modelled from the spec: mode-switch command byte Videotex→Mixed. -/
def MIXTE1 : Int := 0x32

/-- Modelled from the spec: mode-switch command byte Mixed→Videotex. -/
def MIXTE2 : Int := 0x7e

/-- Modelled from the spec: mode-switch command byte to TeleInformatique. -/
def TELINFO : Int := 0x31

/-- Modelled from the spec: speed-programming command byte. -/
def PROG : Int := 0x6b

/-- Modelled from the spec: PRO2 PROG speed code for 300 bps. -/
def B300 : Int := 0x52

/-- Modelled from the spec: PRO2 PROG speed code for 1200 bps. -/
def B1200 : Int := 0x64

/-- Modelled from the spec: PRO2 PROG speed code for 4800 bps. -/
def B4800 : Int := 0x76

/-- Modelled from the spec: PRO2 PROG speed code for 9600 bps. -/
def B9600 : Int := 0x7f

/-- The US (unit separator) control byte, written 0x1f in the source. -/
def US : Int := 0x1f

/-! ## Character translation (`minitel/Sequence.py`) -/

/-- The `UNICODEVERSVIDEOTEX` table of `Sequence.py`: each entry maps a
unicode character to the byte list `unhexlify` produces from the source's
hex string. -/
def UNICODEVERSVIDEOTEX : List (Char × List Int) := [
  ('£', [0x19, 0x23]), ('°', [0x19, 0x30]), ('±', [0x19, 0x31]),
  ('←', [0x19, 0x2c]), ('↑', [0x19, 0x2d]), ('→', [0x19, 0x2e]),
  ('↓', [0x19, 0x2f]),
  ('¼', [0x19, 0x3c]), ('½', [0x19, 0x3d]), ('¾', [0x19, 0x3e]),
  ('ç', [0x19, 0x4b, 0x63]), ('’', [0x19, 0x4b, 0x27]),
  ('à', [0x19, 0x41, 0x61]), ('á', [0x19, 0x42, 0x61]),
  ('â', [0x19, 0x43, 0x61]), ('ä', [0x19, 0x48, 0x61]),
  ('è', [0x19, 0x41, 0x65]), ('é', [0x19, 0x42, 0x65]),
  ('ê', [0x19, 0x43, 0x65]), ('ë', [0x19, 0x48, 0x65]),
  ('ì', [0x19, 0x41, 0x69]), ('í', [0x19, 0x42, 0x69]),
  ('î', [0x19, 0x43, 0x69]), ('ï', [0x19, 0x48, 0x69]),
  ('ò', [0x19, 0x41, 0x6f]), ('ó', [0x19, 0x42, 0x6f]),
  ('ô', [0x19, 0x43, 0x6f]), ('ö', [0x19, 0x48, 0x6f]),
  ('ù', [0x19, 0x41, 0x75]), ('ú', [0x19, 0x42, 0x75]),
  ('û', [0x19, 0x43, 0x75]), ('ü', [0x19, 0x48, 0x75]),
  ('Œ', [0x19, 0x6a]), ('œ', [0x19, 0x7a]),
  ('ß', [0x19, 0x7b]), ('β', [0x19, 0x7b])]

/-- The `UNICODEVERSAUTRE` table of `Sequence.py`. -/
def UNICODEVERSAUTRE : List (Char × List Int) := [
  ('£', [0x0e, 0x23, 0x0f]),
  ('°', [0x0e, 0x5b, 0x0f]), ('ç', [0x0e, 0x5c, 0x0f]), ('’', [0x27]),
  ('`', [0x60]), ('§', [0x0e, 0x5d, 0x0f]),
  ('à', [0x0e, 0x40, 0x0f]), ('è', [0x0e, 0x7f, 0x0f]),
  ('é', [0x0e, 0x7b, 0x0f]), ('ù', [0x0e, 0x7c, 0x0f])]

/-- Lookup in a conversion table, `caractere in TABLE` followed by
`TABLE[caractere]` in the source. -/
def table_conversion (table : List (Char × List Int)) (c : Char) :
    Option (List Int) :=
  (table.find? (fun p => p.1 == c)).map Prod.snd

/-- Modelled from the spec: the fallback
`normalize('NFKD', caractere).encode('ascii', 'replace')` of
`Sequence.unicode_vers_minitel` comes from the Python standard library,
not from this repository.  Per the spec it is a best-effort normalization
that strips diacritics and substitutes a printable ASCII approximation,
never failing.  We model it as the identity on ASCII characters (exact)
and as the replacement byte 0x3f for other characters (each byte the real
function produces is an ASCII code below 0x80, which is all the theorems
below rely on). -/
def normalisation_ascii (c : Char) : List Int :=
  if c.toNat < 128 then [(c.toNat : Int)] else [0x3f]

/-- `Sequence.unicode_vers_minitel`: table lookup according to the
standard, falling back to ASCII normalization. -/
def unicode_vers_minitel (standard : String) (c : Char) : List Int :=
  if standard = "VIDEOTEX" then
    match table_conversion UNICODEVERSVIDEOTEX c with
    | some octets => octets
    | none => normalisation_ascii c
  else
    match table_conversion UNICODEVERSAUTRE c with
    | none => normalisation_ascii c
    | some octets => octets

/-! ## Values and canonicalisation -/

/-- A Python value acceptable to `Sequence.__init__`, `ajoute`,
`canonise` and `egale`: an (unbounded, signed) integer, a string, a list
of further values, or a `Sequence` object.  A `Sequence` object is
represented by its `valeurs` attribute, the only part `canonise` and
`egale` access. -/
inductive Valeur where
  | int (n : Int)
  | str (s : List Char)
  | list (l : List Valeur)
  | seq (vs : List Valeur)

mutual

/-- Python structural equality `==` on values (used by `list.__eq__`
inside `Sequence.egale` and by the `in`/`==` tests of `Minitel.py`). -/
def beqValeur : Valeur → Valeur → Bool
  | .int m, .int n => decide (m = n)
  | .str a, .str b => decide (a = b)
  | .list a, .list b => beqListeValeurs a b
  | .seq a, .seq b => beqListeValeurs a b
  | _, _ => false

/-- Python `==` on lists of values: elementwise equality. -/
def beqListeValeurs : List Valeur → List Valeur → Bool
  | [], [] => true
  | a :: l, b :: m => beqValeur a b && beqListeValeurs l m
  | _, _ => false

end

mutual

/-- `beqValeur` decides propositional equality. -/
def beqValeur_correcte : (a b : Valeur) → beqValeur a b = true ↔ a = b
  | .int _, .int _ => by simp [beqValeur]
  | .int _, .str _ => by simp [beqValeur]
  | .int _, .list _ => by simp [beqValeur]
  | .int _, .seq _ => by simp [beqValeur]
  | .str _, .int _ => by simp [beqValeur]
  | .str _, .str _ => by simp [beqValeur]
  | .str _, .list _ => by simp [beqValeur]
  | .str _, .seq _ => by simp [beqValeur]
  | .list _, .int _ => by simp [beqValeur]
  | .list _, .str _ => by simp [beqValeur]
  | .list a, .list b => by
      simp [beqValeur, beqListeValeurs_correcte a b]
  | .list _, .seq _ => by simp [beqValeur]
  | .seq _, .int _ => by simp [beqValeur]
  | .seq _, .str _ => by simp [beqValeur]
  | .seq _, .list _ => by simp [beqValeur]
  | .seq a, .seq b => by
      simp [beqValeur, beqListeValeurs_correcte a b]

/-- `beqListeValeurs` decides propositional equality of value lists. -/
def beqListeValeurs_correcte :
    (l m : List Valeur) → beqListeValeurs l m = true ↔ l = m
  | [], [] => by simp [beqListeValeurs]
  | [], _ :: _ => by simp [beqListeValeurs]
  | _ :: _, [] => by simp [beqListeValeurs]
  | a :: l, b :: m => by
      simp [beqListeValeurs, Bool.and_eq_true, beqValeur_correcte a b,
        beqListeValeurs_correcte l m]

end

instance : DecidableEq Valeur :=
  fun a b => decidable_of_iff _ (beqValeur_correcte a b)

/-- Byte expansion of a string: each character goes through
`unicode_vers_minitel`, the resulting bytes are appended in order (the
two nested `for` loops of `Sequence.canonise` for string elements). -/
def valeurs_chaine (standard : String) : List Char → List Valeur
  | [] => []
  | c :: reste =>
      (unicode_vers_minitel standard c).map Valeur.int
        ++ valeurs_chaine standard reste

mutual

/-- `Sequence.canonise`: an integer stays wrapped in a singleton list, a
`Sequence` argument contributes its `valeurs` verbatim, a string expands
through the translation table, and a list is processed element by element
by `canonise_boucle`. -/
def canonise (standard : String) : Valeur → List Valeur
  | .int n => [.int n]
  | .seq vs => vs
  | .str cs => valeurs_chaine standard cs
  | .list l => canonise_boucle standard l

/-- The `for element in valeur` loop of `Sequence.canonise` over a list:
string elements expand through the table, integer elements are appended
as they are, list elements are canonicalised recursively, and any other
element (in particular a nested `Sequence` object) matches no branch and
contributes nothing. -/
def canonise_boucle (standard : String) : List Valeur → List Valeur
  | [] => []
  | .int n :: reste => .int n :: canonise_boucle standard reste
  | .str cs :: reste =>
      valeurs_chaine standard cs ++ canonise_boucle standard reste
  | .list l :: reste =>
      canonise_boucle standard l ++ canonise_boucle standard reste
  | .seq _ :: reste => canonise_boucle standard reste

end

/-! ## The Sequence class -/

/-- The mutable state of a `Sequence` object: its flat value list, its
stored `longueur`, and the conversion standard chosen at construction. -/
structure Sequence where
  valeurs : List Valeur
  longueur : Nat
  standard : String

/-- `Sequence.ajoute`: canonicalise the argument, concatenate it onto
`valeurs`, and refresh `longueur` from the new list. -/
def Sequence.ajoute (s : Sequence) (valeur : Valeur) : Sequence :=
  { s with
    valeurs := s.valeurs ++ canonise s.standard valeur
    longueur := (s.valeurs ++ canonise s.standard valeur).length }

/-- `Sequence.__init__`: empty state, then one `ajoute` when a value is
provided. -/
def Sequence.nouvelle (valeur : Option Valeur)
    (standard : String := "VIDEOTEX") : Sequence :=
  match valeur with
  | none => { valeurs := [], longueur := 0, standard := standard }
  | some v =>
      Sequence.ajoute { valeurs := [], longueur := 0, standard := standard } v

/-- `Sequence.egale`: a non-`Sequence` argument is first coerced through
the constructor (with its default standard `VIDEOTEX`), then the
`valeurs` lists are compared with Python `==`. -/
def Sequence.egale (s : Sequence) (sequence : Valeur) : Bool :=
  match sequence with
  | .seq vs => beqListeValeurs s.valeurs vs
  | v => beqListeValeurs s.valeurs (Sequence.nouvelle (some v)).valeurs

/-! ## Receiving one frame (`Minitel.recevoir_sequence`)

The inbound queue and the timing of arrivals are modelled by a list of
read outcomes, one per call to `Minitel.recevoir`: `some octet` means the
call dequeued the byte `octet`, `none` means the bounded wait elapsed
with nothing received (or, for a non-blocking call, that the queue was
empty), in which case `Queue.get` raises `Empty`.  An exhausted outcome
list is read as `none`.  The serial link runs at 7 data bits, so every
byte put on the queue is below 0x80. -/

/-- One `sequence.ajoute(self.recevoir(...))` step: the received byte is
decoded to a one-character string and appended through `canonise`. -/
def Sequence.ajoute_octet (s : Sequence) (octet : Nat) : Sequence :=
  Sequence.ajoute s (Valeur.str [Char.ofNat octet])

/-- The test `sequence.valeurs[-1] == n` of `recevoir_sequence`:
Python compares the last element of `valeurs` (never empty at the use
sites, and an integer for the 7-bit bytes read there) to the constant. -/
def Sequence.dernier_vaut (s : Sequence) (n : Int) : Bool :=
  match s.valeurs.getLast? with
  | some (Valeur.int m) => decide (m = n)
  | _ => false

/-- `Minitel.recevoir_sequence`, driven by the list of read outcomes.
The first read is performed outside any `try`, so an `Empty` there
propagates to the caller (`Except.error ()`).  A first byte equal to SS2
or SEP triggers exactly one further blocking read.  A first byte equal to
ESC opens a `try` block: a timeout on the 0.1-second bounded second read,
or on any later read of the escape branch, is caught by the
`except Empty: pass` clause and the sequence gathered so far is
returned.  Any other first byte makes a 1-byte frame. -/
def recevoir_sequence (lectures : List (Option Nat)) : Except Unit Sequence :=
  let sequence := Sequence.nouvelle none
  match lectures with
  | [] => Except.error ()
  | none :: _ => Except.error ()
  | some o0 :: reste1 =>
    let s1 := sequence.ajoute_octet o0
    if s1.dernier_vaut SS2 || s1.dernier_vaut SEP then
      match reste1 with
      | [] => Except.error ()
      | none :: _ => Except.error ()
      | some o1 :: _ => Except.ok (s1.ajoute_octet o1)
    else if s1.dernier_vaut ESC then
      match reste1 with
      | [] => Except.ok s1
      | none :: _ => Except.ok s1
      | some o1 :: reste2 =>
        let s2 := s1.ajoute_octet o1
        if beqListeValeurs s2.valeurs (CSI.map Valeur.int) then
          match reste2 with
          | [] => Except.ok s2
          | none :: _ => Except.ok s2
          | some o2 :: reste3 =>
            let s3 := s2.ajoute_octet o2
            if s3.dernier_vaut 0x32 || s3.dernier_vaut 0x34 then
              match reste3 with
              | [] => Except.ok s3
              | none :: _ => Except.ok s3
              | some o3 :: _ => Except.ok (s3.ajoute_octet o3)
            else Except.ok s3
        else Except.ok s2
    else Except.ok s1

/-! ## Transactions (`Minitel.appeler`) and mode switching -/

/-- The byte list `Minitel.envoyer` enqueues for a given content: the
content coerced to a `Sequence` (with the default standard), read off as
its canonical `valeurs`. -/
def commande (contenu : Valeur) : List Valeur :=
  (Sequence.nouvelle (some contenu)).valeurs

/-- The `Sequence` that `Minitel.appeler` returns when the device answers
with the given (7-bit) bytes: the collection loop appends each received
byte to a fresh `Sequence`, so `valeurs` is the byte list and `longueur`
its length. -/
def appeler_retour (reponse : List Int) : Sequence :=
  { valeurs := reponse.map Valeur.int
    longueur := reponse.length
    standard := "VIDEOTEX" }

/-- The observable outcome of `Minitel.definir_mode`: the returned
boolean, the `mode` attribute after the call, and the list of
transactions issued through `appeler` (each recorded as the enqueued
byte sequence paired with the expected reply length). -/
structure ResultatMode where
  resultat : Bool
  mode : String
  transactions : List (List Valeur × Nat)

/-- The Python value `[CSI, 0x3f, 0x7b]` (CSI is itself a list). -/
def commande_vers_videotex : Valeur :=
  .list [.list (CSI.map Valeur.int), .int 0x3f, .int 0x7b]

/-- The Python value `[PRO2, MIXTE1]`. -/
def commande_vers_mixte : Valeur :=
  .list [.list (PRO2.map Valeur.int), .int MIXTE1]

/-- The Python value `[PRO2, MIXTE2]`. -/
def commande_mixte_vers_videotex : Valeur :=
  .list [.list (PRO2.map Valeur.int), .int MIXTE2]

/-- The Python value `[PRO2, TELINFO]`. -/
def commande_vers_telinfo : Valeur :=
  .list [.list (PRO2.map Valeur.int), .int TELINFO]

/-- `Minitel.definir_mode`, as a function of the stored mode, the
requested mode, and the reply bytes the device returns to each
successive `appeler` transaction (`reponses.get? k` for the k-th call; a
missing entry stands for no reply at all).  An unknown mode name returns
`False` at once; an already-active mode returns `True` at once; the six
directed transitions issue their commands and compare the replies with
`Sequence.egale`; the stored mode is updated only when the final
`resultat` is true.  The TeleInformatique→Mixed case returns `False`
without a second transaction when the first acknowledgment mismatches. -/
def definir_mode (modeCourant : String) (mode : String)
    (reponses : List (List Int)) : ResultatMode :=
  let rep := fun k => (reponses.get? k).getD []
  if ¬ (mode = "VIDEOTEX" ∨ mode = "MIXTE" ∨ mode = "TELEINFORMATIQUE") then
    { resultat := false, mode := modeCourant, transactions := [] }
  else if modeCourant = mode then
    { resultat := true, mode := modeCourant, transactions := [] }
  else if modeCourant = "TELEINFORMATIQUE" ∧ mode = "VIDEOTEX" then
    let resultat :=
      (appeler_retour (rep 0)).egale (.list [.int SEP, .int 0x5e])
    { resultat := resultat
      mode := if resultat then mode else modeCourant
      transactions := [(commande commande_vers_videotex, 2)] }
  else if modeCourant = "TELEINFORMATIQUE" ∧ mode = "MIXTE" then
    let resultat1 :=
      (appeler_retour (rep 0)).egale (.list [.int SEP, .int 0x5e])
    if ¬ resultat1 then
      { resultat := false, mode := modeCourant
        transactions := [(commande commande_vers_videotex, 2)] }
    else
      let resultat2 :=
        (appeler_retour (rep 1)).egale (.list [.int SEP, .int 0x70])
      { resultat := resultat2
        mode := if resultat2 then mode else modeCourant
        transactions := [(commande commande_vers_videotex, 2),
                         (commande commande_vers_mixte, 2)] }
  else if modeCourant = "VIDEOTEX" ∧ mode = "MIXTE" then
    let resultat :=
      (appeler_retour (rep 0)).egale (.list [.int SEP, .int 0x70])
    { resultat := resultat
      mode := if resultat then mode else modeCourant
      transactions := [(commande commande_vers_mixte, 2)] }
  else if modeCourant = "VIDEOTEX" ∧ mode = "TELEINFORMATIQUE" then
    let resultat :=
      (appeler_retour (rep 0)).egale
        (.list [.list (CSI.map Valeur.int), .int 0x3f, .int 0x7a])
    { resultat := resultat
      mode := if resultat then mode else modeCourant
      transactions := [(commande commande_vers_telinfo, 4)] }
  else if modeCourant = "MIXTE" ∧ mode = "VIDEOTEX" then
    let resultat :=
      (appeler_retour (rep 0)).egale (.list [.int SEP, .int 0x71])
    { resultat := resultat
      mode := if resultat then mode else modeCourant
      transactions := [(commande commande_mixte_vers_videotex, 2)] }
  else if modeCourant = "MIXTE" ∧ mode = "TELEINFORMATIQUE" then
    let resultat :=
      (appeler_retour (rep 0)).egale
        (.list [.list (CSI.map Valeur.int), .int 0x3f, .int 0x7a])
    { resultat := resultat
      mode := if resultat then mode else modeCourant
      transactions := [(commande commande_vers_telinfo, 4)] }
  else
    { resultat := false, mode := modeCourant, transactions := [] }

/-! ## Speed programming (`Minitel.definir_vitesse`) -/

/-- The observable outcome of `Minitel.definir_vitesse`: the returned
boolean, the serial port's baud rate and the stored `vitesse` after the
call, and the transactions issued. -/
structure ResultatVitesse where
  resultat : Bool
  baudrate : Int
  vitesse : Int
  transactions : List (List Valeur × Nat)

/-- The `vitesses` dictionary `{300: B300, 1200: B1200, 4800: B4800,
9600: B9600}` of `definir_vitesse` (looked up only on its keys). -/
def code_vitesse (vitesse : Int) : Int :=
  if vitesse = 300 then B300
  else if vitesse = 1200 then B1200
  else if vitesse = 4800 then B4800
  else B9600

/-- `Minitel.definir_vitesse`, as a function of the requested rate, the
device's negotiated maximum capability `self.capacite['vitesse']`, the
reply bytes collected by the single `appeler` transaction, and the
Transport state before the call.  An unsupported or too-high rate
returns `False` untouched; a full-length (`LONGUEUR_PRO2`)
acknowledgment means rejection (`False`, state untouched); otherwise the
serial port and the stored speed are set to the requested rate and the
call returns `True`. -/
def definir_vitesse (vitesse : Int) (capaciteVitesse : Int)
    (reponse : List Int) (baudrate : Int) (vitesseCourante : Int) :
    ResultatVitesse :=
  if ¬ (vitesse = 300 ∨ vitesse = 1200 ∨ vitesse = 4800 ∨ vitesse = 9600)
      ∨ capaciteVitesse < vitesse then
    { resultat := false, baudrate := baudrate, vitesse := vitesseCourante
      transactions := [] }
  else
    let transaction :=
      (commande (.list [.list (PRO2.map Valeur.int), .int PROG,
         .int (code_vitesse vitesse)]), LONGUEUR_PRO2)
    if (appeler_retour reponse).longueur = LONGUEUR_PRO2 then
      { resultat := false, baudrate := baudrate, vitesse := vitesseCourante
        transactions := [transaction] }
    else
      { resultat := true, baudrate := vitesse, vitesse := vitesse
        transactions := [transaction] }

/-! ## Character redefinition (`Minitel.redefinir`) -/

/-- Python `int(chaine, 2)` on a string of `0`/`1` characters (the
`octet` accumulator of `redefinir` only ever holds such characters; the
empty string never reaches the conversion). -/
def bits_en_entier (bits : List Char) : Int :=
  bits.foldl (fun acc b => acc * 2 + (if b = '1' then 1 else 0)) 0

/-- The `for pixel in dessins` loop of `redefinir`, returning the list
of `envoyer` calls it makes (each one the canonical byte sequence of a
single integer argument).  Characters other than `0`/`1` are skipped; a
full 6-bit group is sent as `0x40 + int(octet, 2)`; when the 80th pixel
of a character is reached the remaining bits are padded with four zero
bits and sent, followed by `0x30`, and both accumulators are reset. -/
def boucle_pixels : List Char → List Char → Nat → List (List Valeur)
  | [], _, _ => []
  | pixel :: reste, octet, compte =>
    if pixel ≠ '0' ∧ pixel ≠ '1' then boucle_pixels reste octet compte
    else
      let octet1 := octet ++ [pixel]
      let compte1 := compte + 1
      let envois1 :=
        if octet1.length = 6 then
          [commande (.int (0x40 + bits_en_entier octet1))] else []
      let octet2 := if octet1.length = 6 then [] else octet1
      if compte1 = 80 then
        envois1
          ++ [commande (.int (0x40 +
                bits_en_entier (octet2 ++ ['0', '0', '0', '0']))),
              commande (.int 0x30)]
          ++ boucle_pixels reste [] 0
      else envois1 ++ boucle_pixels reste octet2 compte1

/-- The bytes of the final character-set selection `envoyer` call of
`redefinir`: the source compares `jeu` against the string `'GO'` (letter
O, a typo for `'G0'`), sending `[ESC, 0x28, 0x20, 0x42]` on a match and
`[ESC, 0x29, 0x20, 0x43]` otherwise. -/
def selection_finale (jeu : String) : List Valeur :=
  if jeu = "GO" then
    commande (.list [.int ESC, .int 0x28, .int 0x20, .int 0x42])
  else
    commande (.list [.int ESC, .int 0x29, .int 0x20, .int 0x43])

/-- `Minitel.redefinir` as the ordered list of `envoyer` calls it makes,
each recorded as the canonical byte sequence enqueued: the G'0/G'1
definition-mode header (this first test correctly compares `jeu` with
`'G0'`), the start-character selector, the pixel upload loop, the
cursor positioning that exits definition mode, and the final
character-set selection. -/
def redefinir (depuis : Char) (dessins : List Char) (jeu : String) :
    List (List Valeur) :=
  (if jeu = "G0" then
    [commande (.list [.int US, .int 0x23, .int 0x20, .int 0x20, .int 0x20,
       .int 0x42, .int 0x49])]
  else
    [commande (.list [.int US, .int 0x23, .int 0x20, .int 0x20, .int 0x20,
       .int 0x43, .int 0x49])])
  ++ [commande (.list [.int US, .int 0x23, .str [depuis], .int 0x30])]
  ++ boucle_pixels dessins [] 0
  ++ [commande (.list [.int US, .int 0x41, .int 0x41])]
  ++ [selection_finale jeu]

/-! ## Invariant predicates for canonical sequences -/

/-- A canonical element: an integer in the byte range [0, 255]. -/
def est_octet : Valeur → Bool
  | .int n => decide (0 ≤ n ∧ n ≤ 255)
  | _ => false

mutual

/-- Inputs whose integer leaves all lie in [0, 255] and whose embedded
`Sequence` objects are already in canonical byte form. -/
def entree_octets : Valeur → Bool
  | .int n => decide (0 ≤ n ∧ n ≤ 255)
  | .str _ => true
  | .list l => entree_octets_liste l
  | .seq vs => vs.all est_octet

/-- `entree_octets` over the direct elements of a list. -/
def entree_octets_liste : List Valeur → Bool
  | [] => true
  | v :: reste => entree_octets v && entree_octets_liste reste

end

/-! ## Helper lemmas -/

/-- Decoding a 7-bit byte gives back its code point. -/
theorem charOfNat_toNat : ∀ b : Nat, b < 128 → (Char.ofNat b).toNat = b := by
  decide

/-- No key of the Videotex conversion table is a 7-bit character. -/
theorem table_videotex_ascii :
    ∀ b : Nat, b < 128 →
      table_conversion UNICODEVERSVIDEOTEX (Char.ofNat b) = none := by
  decide

/-- A 7-bit byte read from the serial link is translated to itself by
`unicode_vers_minitel` under the default `VIDEOTEX` standard. -/
theorem uvm_videotex_ascii :
    ∀ b : Nat, b < 128 →
      unicode_vers_minitel "VIDEOTEX" (Char.ofNat b) = [(b : Int)] := by
  decide

/-- Appending one received 7-bit byte to a `VIDEOTEX` sequence appends
exactly one integer element. -/
theorem ajoute_octet_eval (s : Sequence) (hstd : s.standard = "VIDEOTEX")
    (b : Nat) (hb : b < 128) :
    s.ajoute_octet b =
      ⟨s.valeurs ++ [.int (b : Int)], s.valeurs.length + 1, "VIDEOTEX"⟩ := by
  cases s with
  | mk valeurs longueur standard =>
    simp only [Sequence.ajoute_octet, Sequence.ajoute] at *
    subst hstd
    simp [canonise, valeurs_chaine, uvm_videotex_ascii b hb]

/-- `dernier_vaut` on a sequence ending in an integer element. -/
theorem dernier_vaut_concat (l : List Valeur) (m : Int) (n : Nat)
    (std : String) (k : Int) :
    Sequence.dernier_vaut ⟨l ++ [.int m], n, std⟩ k = decide (m = k) := by
  simp [Sequence.dernier_vaut, List.getLast?_concat]

/-! ## Claim theorems -/

/-- C1.  Framing of `recevoir_sequence` over the dequeued 7-bit bytes:
a first byte equal to SS2 (0x19) or SEP (0x13) yields a 2-byte frame
(one further blocking read); a first byte ESC followed by a 0.1-second
timeout yields the 1-byte Escape frame; when the two-byte prefix equals
the CSI introducer, a third byte is block-read, and a fourth byte is
block-read exactly when the third byte is 0x32 or 0x34; any other first
byte yields a 1-byte frame. -/
theorem recevoir_sequence_cadrage :
    (∀ b0 b1 reste, (b0 = 0x19 ∨ b0 = 0x13) → b1 < 128 →
      recevoir_sequence (some b0 :: some b1 :: reste)
        = Except.ok ⟨[.int (b0 : Int), .int (b1 : Int)], 2, "VIDEOTEX"⟩)
    ∧ (∀ reste, recevoir_sequence (some 0x1b :: none :: reste)
        = Except.ok ⟨[.int 0x1b], 1, "VIDEOTEX"⟩)
    ∧ (∀ b2 reste, b2 < 128 → b2 ≠ 0x32 → b2 ≠ 0x34 →
      recevoir_sequence (some 0x1b :: some 0x5b :: some b2 :: reste)
        = Except.ok ⟨[.int 0x1b, .int 0x5b, .int (b2 : Int)], 3, "VIDEOTEX"⟩)
    ∧ (∀ b2 b3 reste, (b2 = 0x32 ∨ b2 = 0x34) → b3 < 128 →
      recevoir_sequence (some 0x1b :: some 0x5b :: some b2 :: some b3 :: reste)
        = Except.ok ⟨[.int 0x1b, .int 0x5b, .int (b2 : Int), .int (b3 : Int)],
            4, "VIDEOTEX"⟩)
    ∧ (∀ b0 reste, b0 < 128 → b0 ≠ 0x19 → b0 ≠ 0x13 → b0 ≠ 0x1b →
      recevoir_sequence (some b0 :: reste)
        = Except.ok ⟨[.int (b0 : Int)], 1, "VIDEOTEX"⟩) := by
  refine ⟨?_, ?_, ?_, ?_, ?_⟩
  · intro b0 b1 reste h hb1
    have hb0 : b0 < 128 := by rcases h with h | h <;> simp [h]
    simp only [recevoir_sequence, Sequence.nouvelle]
    rw [ajoute_octet_eval _ rfl b0 hb0]
    rw [dernier_vaut_concat, dernier_vaut_concat]
    rcases h with h | h <;> subst h <;>
      rw [ajoute_octet_eval _ rfl b1 hb1] <;>
      simp [SS2, SEP, ESC]
  · intro reste
    simp only [recevoir_sequence, Sequence.nouvelle]
    rw [ajoute_octet_eval _ rfl 0x1b (by norm_num)]
    rw [dernier_vaut_concat, dernier_vaut_concat, dernier_vaut_concat]
    simp [SS2, SEP, ESC]
  · intro b2 reste hb2 h32 h34
    have i32 : (b2 : Int) ≠ 0x32 := by exact_mod_cast h32
    have i34 : (b2 : Int) ≠ 0x34 := by exact_mod_cast h34
    simp only [recevoir_sequence, Sequence.nouvelle]
    simp [ajoute_octet_eval, hb2, Sequence.dernier_vaut, SS2, SEP, ESC, CSI,
      beqValeur, beqListeValeurs, i32, i34]
  · intro b2 b3 reste h hb3
    simp only [recevoir_sequence, Sequence.nouvelle]
    rcases h with h | h <;> subst h <;>
      simp [ajoute_octet_eval, hb3, Sequence.dernier_vaut, SS2, SEP, ESC, CSI,
        beqValeur, beqListeValeurs]
  · intro b0 reste hb0 h19 h13 h1b
    have i19 : (b0 : Int) ≠ 0x19 := by exact_mod_cast h19
    have i13 : (b0 : Int) ≠ 0x13 := by exact_mod_cast h13
    have i1b : (b0 : Int) ≠ 0x1b := by exact_mod_cast h1b
    simp only [recevoir_sequence, Sequence.nouvelle]
    simp [ajoute_octet_eval, hb0, Sequence.dernier_vaut, SS2, SEP, ESC,
      i19, i13, i1b]

/-- C1, witness: the five framing cases at concrete byte streams
(`[SEP, 0x5e]`, `[ESC]` then silence, `[ESC, '[', 0x41]`,
`[ESC, '[', 0x32, 0x41]`, and the lone byte 0x42). -/
theorem recevoir_sequence_cadrage_temoin :
    recevoir_sequence [some 0x13, some 0x5e]
        = Except.ok ⟨[.int 0x13, .int 0x5e], 2, "VIDEOTEX"⟩
    ∧ recevoir_sequence [some 0x1b, none]
        = Except.ok ⟨[.int 0x1b], 1, "VIDEOTEX"⟩
    ∧ recevoir_sequence [some 0x1b, some 0x5b, some 0x41]
        = Except.ok ⟨[.int 0x1b, .int 0x5b, .int 0x41], 3, "VIDEOTEX"⟩
    ∧ recevoir_sequence [some 0x1b, some 0x5b, some 0x32, some 0x41]
        = Except.ok ⟨[.int 0x1b, .int 0x5b, .int 0x32, .int 0x41], 4,
            "VIDEOTEX"⟩
    ∧ recevoir_sequence [some 0x42]
        = Except.ok ⟨[.int 0x42], 1, "VIDEOTEX"⟩ := by
  refine ⟨?_, ?_, ?_, ?_, ?_⟩
  · exact recevoir_sequence_cadrage.1 0x13 0x5e [] (Or.inr rfl) (by norm_num)
  · exact recevoir_sequence_cadrage.2.1 []
  · exact recevoir_sequence_cadrage.2.2.1 0x41 [] (by norm_num)
      (by norm_num) (by norm_num)
  · exact recevoir_sequence_cadrage.2.2.2.1 0x32 0x41 [] (Or.inl rfl)
      (by norm_num)
  · exact recevoir_sequence_cadrage.2.2.2.2 0x42 [] (by norm_num)
      (by norm_num) (by norm_num) (by norm_num)

/-- C2, counterexample: a non-blocking call on an empty inbound queue
(first read outcome `Empty`) does not return an empty `Sequence` — the
`Empty` exception escapes `recevoir_sequence`, whose first read is
outside the `try` block. -/
theorem recevoir_sequence_vide_erreur :
    recevoir_sequence [] = Except.error ()
    ∧ recevoir_sequence [] ≠ Except.ok (Sequence.nouvelle none) := by
  constructor
  · rfl
  · intro h
    simp [recevoir_sequence] at h

/-- C2, amended: when no byte can be dequeued, `recevoir_sequence`
propagates the `Empty` condition to its caller as an exception instead
of returning an empty `Sequence`. -/
theorem recevoir_sequence_vide_propage :
    (∀ reste, recevoir_sequence (none :: reste) = Except.error ())
    ∧ recevoir_sequence [] = Except.error () := by
  exact ⟨fun reste => rfl, rfl⟩

/-- C3.  From stored mode TeleInformatique, requesting MIXTE issues the
TeleInformatique→Videotex command `[CSI, 0x3f, 0x7b]` and then the
Videotex→Mixed command `[PRO2, MIXTE1]` (two sub-transactions exactly)
when the first acknowledgment equals `[SEP, 0x5e]`; when it does not,
the call returns `False` with the stored mode left at
`TELEINFORMATIQUE` and only the first transaction issued. -/
theorem definir_mode_teleinfo_mixte :
    ∀ reponses : List (List Int),
      ((appeler_retour ((reponses.get? 0).getD [])).egale
          (.list [.int SEP, .int 0x5e]) = true →
        (definir_mode "TELEINFORMATIQUE" "MIXTE" reponses).transactions
          = [(commande commande_vers_videotex, 2),
             (commande commande_vers_mixte, 2)])
      ∧ ((appeler_retour ((reponses.get? 0).getD [])).egale
          (.list [.int SEP, .int 0x5e]) = false →
        definir_mode "TELEINFORMATIQUE" "MIXTE" reponses
          = ⟨false, "TELEINFORMATIQUE",
             [(commande commande_vers_videotex, 2)]⟩) := by
  intro reponses
  constructor <;> intro h <;> simp only [List.get?_eq_getElem?] at h <;>
    simp [definir_mode, h]

/-- C3, witness: a device acknowledging both hops yields the two
transactions in order; a device answering `[0x40]` to the first hop
makes the call fail atomically after one transaction. -/
theorem definir_mode_teleinfo_mixte_temoin :
    (definir_mode "TELEINFORMATIQUE" "MIXTE"
        [[0x13, 0x5e], [0x13, 0x70]]).transactions
      = [(commande commande_vers_videotex, 2),
         (commande commande_vers_mixte, 2)]
    ∧ definir_mode "TELEINFORMATIQUE" "MIXTE" [[0x40]]
      = ⟨false, "TELEINFORMATIQUE",
         [(commande commande_vers_videotex, 2)]⟩ := by
  constructor
  · exact (definir_mode_teleinfo_mixte [[0x13, 0x5e], [0x13, 0x70]]).1
      (by simp [appeler_retour, Sequence.egale, Sequence.nouvelle,
        Sequence.ajoute, canonise, canonise_boucle, beqValeur,
        beqListeValeurs, SEP])
  · exact (definir_mode_teleinfo_mixte [[0x40]]).2
      (by simp [appeler_retour, Sequence.egale, Sequence.nouvelle,
        Sequence.ajoute, canonise, canonise_boucle, beqValeur,
        beqListeValeurs, SEP])

/-- C4.  For every supported rate not exceeding the negotiated maximum
capability, `definir_vitesse` issues the speed-programming command
`[PRO2, PROG, code]` expecting `LONGUEUR_PRO2` bytes; a full-length
acknowledgment yields `False` with the Transport's baud rate and the
stored speed unchanged, while a shorter (timed-out) reply reconfigures
the Transport to the requested rate, stores it, and yields `True`. -/
theorem definir_vitesse_programmation :
    ∀ (vitesse capacite : Int) (reponse : List Int)
      (baudrate vitesseCourante : Int),
      (vitesse = 300 ∨ vitesse = 1200 ∨ vitesse = 4800 ∨ vitesse = 9600) →
      vitesse ≤ capacite →
      (reponse.length = LONGUEUR_PRO2 →
        definir_vitesse vitesse capacite reponse baudrate vitesseCourante
          = ⟨false, baudrate, vitesseCourante,
             [(commande (.list [.list (PRO2.map Valeur.int), .int PROG,
                 .int (code_vitesse vitesse)]), LONGUEUR_PRO2)]⟩)
      ∧ (reponse.length < LONGUEUR_PRO2 →
        definir_vitesse vitesse capacite reponse baudrate vitesseCourante
          = ⟨true, vitesse, vitesse,
             [(commande (.list [.list (PRO2.map Valeur.int), .int PROG,
                 .int (code_vitesse vitesse)]), LONGUEUR_PRO2)]⟩) := by
  intro vitesse capacite reponse baudrate vitesseCourante hv hcap
  have hgarde : ¬ (¬ (vitesse = 300 ∨ vitesse = 1200 ∨ vitesse = 4800 ∨
      vitesse = 9600) ∨ capacite < vitesse) := by
    push_neg
    exact ⟨hv, hcap⟩
  constructor
  · intro h
    unfold definir_vitesse
    rw [if_neg hgarde]
    simp [appeler_retour, h]
  · intro h
    have h4 : reponse.length ≠ LONGUEUR_PRO2 := Nat.ne_of_lt h
    unfold definir_vitesse
    rw [if_neg hgarde]
    simp [appeler_retour, h4]

/-- C4, witness: requesting 4800 bps within a 9600 bps capability — a
4-byte acknowledgment is a rejection leaving the state at 1200 bps,
while a 1-byte (timed-out) reply reconfigures to 4800 bps. -/
theorem definir_vitesse_programmation_temoin :
    definir_vitesse 4800 9600 [0x1b, 0x3a, 0x75, 0x64] 1200 1200
      = ⟨false, 1200, 1200,
         [(commande (.list [.list (PRO2.map Valeur.int), .int PROG,
             .int (code_vitesse 4800)]), LONGUEUR_PRO2)]⟩
    ∧ definir_vitesse 4800 9600 [0x40] 1200 1200
      = ⟨true, 4800, 4800,
         [(commande (.list [.list (PRO2.map Valeur.int), .int PROG,
             .int (code_vitesse 4800)]), LONGUEUR_PRO2)]⟩ := by
  constructor
  · exact (definir_vitesse_programmation 4800 9600 [0x1b, 0x3a, 0x75, 0x64]
      1200 1200 (by norm_num) (by norm_num)).1 (by simp [LONGUEUR_PRO2])
  · exact (definir_vitesse_programmation 4800 9600 [0x40]
      1200 1200 (by norm_num) (by norm_num)).2 (by simp [LONGUEUR_PRO2])

/-- A successful table lookup returns an entry of the table. -/
theorem mem_table_de_find (t : List (Char × List Int)) (c : Char)
    (p : Char × List Int) : t.find? (fun q => q.1 == c) = some p → p ∈ t := by
  induction t with
  | nil => intro h; simp [List.find?] at h
  | cons a r ih =>
    intro h
    rw [List.find?] at h
    cases ha : (a.1 == c) with
    | true => rw [ha] at h; simp at h; simp [h]
    | false =>
      rw [ha] at h
      simp at h
      exact List.mem_cons_of_mem a (ih h)

/-- Every byte of the Videotex conversion table lies in [0, 255]. -/
theorem table_videotex_octets :
    ∀ p ∈ UNICODEVERSVIDEOTEX, ∀ x ∈ p.2, 0 ≤ x ∧ x ≤ 255 := by decide

/-- Every byte of the reduced-mode conversion table lies in [0, 255]. -/
theorem table_autre_octets :
    ∀ p ∈ UNICODEVERSAUTRE, ∀ x ∈ p.2, 0 ≤ x ∧ x ≤ 255 := by decide

/-- The fallback normalization only produces bytes in [0, 255]. -/
theorem normalisation_ascii_octets (c : Char) :
    ∀ x ∈ normalisation_ascii c, 0 ≤ x ∧ x ≤ 255 := by
  intro x hx
  unfold normalisation_ascii at hx
  split at hx
  · simp at hx
    subst hx
    refine ⟨Int.ofNat_nonneg _, ?_⟩
    omega
  · simp at hx
    subst hx
    norm_num

/-- `unicode_vers_minitel` only produces bytes in [0, 255]. -/
theorem uvm_octets (standard : String) (c : Char) :
    ∀ x ∈ unicode_vers_minitel standard c, 0 ≤ x ∧ x ≤ 255 := by
  intro x hx
  unfold unicode_vers_minitel at hx
  split at hx
  · split at hx
    · rename_i octets htc
      obtain ⟨p, hp, hsnd⟩ := Option.map_eq_some'.mp htc
      exact table_videotex_octets p (mem_table_de_find _ _ _ hp) x (hsnd ▸ hx)
    · exact normalisation_ascii_octets c x hx
  · split at hx
    · exact normalisation_ascii_octets c x hx
    · rename_i octets htc
      obtain ⟨p, hp, hsnd⟩ := Option.map_eq_some'.mp htc
      exact table_autre_octets p (mem_table_de_find _ _ _ hp) x (hsnd ▸ hx)

/-- String expansion only produces canonical byte elements. -/
theorem valeurs_chaine_octets (standard : String) (cs : List Char) :
    ∀ x ∈ valeurs_chaine standard cs, est_octet x = true := by
  induction cs with
  | nil => simp [valeurs_chaine]
  | cons c reste ih =>
    intro x hx
    simp only [valeurs_chaine, List.mem_append] at hx
    rcases hx with hx | hx
    · obtain ⟨b, hb, hbx⟩ := List.mem_map.mp hx
      subst hbx
      simpa [est_octet] using uvm_octets standard c b hb
    · exact ih x hx

mutual

/-- Canonicalisation of an input whose integer leaves are bytes and
whose embedded sequences are canonical yields only byte elements. -/
def canonise_octets : (standard : String) → (v : Valeur) →
    entree_octets v = true →
    ∀ x ∈ canonise standard v, est_octet x = true
  | _, .int n, h => by
      simp only [entree_octets] at h
      simpa [canonise, est_octet] using h
  | standard, .str cs, _ => by
      simpa [canonise] using valeurs_chaine_octets standard cs
  | standard, .list l, h => by
      simp only [entree_octets] at h
      simpa [canonise] using canonise_boucle_octets standard l h
  | _, .seq vs, h => by
      simp only [entree_octets, List.all_eq_true] at h
      simpa [canonise] using h

/-- Same property for the element loop over a list. -/
def canonise_boucle_octets : (standard : String) → (l : List Valeur) →
    entree_octets_liste l = true →
    ∀ x ∈ canonise_boucle standard l, est_octet x = true
  | _, [], _ => by simp [canonise_boucle]
  | standard, .int n :: reste, h => by
      simp only [entree_octets_liste, entree_octets, Bool.and_eq_true] at h
      intro x hx
      simp only [canonise_boucle, List.mem_cons] at hx
      rcases hx with hx | hx
      · subst hx
        simpa [est_octet] using h.1
      · exact canonise_boucle_octets standard reste h.2 x hx
  | standard, .str cs :: reste, h => by
      simp only [entree_octets_liste, entree_octets, Bool.and_eq_true] at h
      intro x hx
      simp only [canonise_boucle, List.mem_append] at hx
      rcases hx with hx | hx
      · exact valeurs_chaine_octets standard cs x hx
      · exact canonise_boucle_octets standard reste h.2 x hx
  | standard, .list l :: reste, h => by
      simp only [entree_octets_liste, entree_octets, Bool.and_eq_true] at h
      intro x hx
      simp only [canonise_boucle, List.mem_append] at hx
      rcases hx with hx | hx
      · exact canonise_boucle_octets standard l h.1 x hx
      · exact canonise_boucle_octets standard reste h.2 x hx
  | standard, .seq vs :: reste, h => by
      simp only [entree_octets_liste, entree_octets, Bool.and_eq_true] at h
      intro x hx
      simp only [canonise_boucle] at hx
      exact canonise_boucle_octets standard reste h.2 x hx

end

/-- C5, counterexample: the canonical form keeps an out-of-range
integer argument as it is, so an appended `256` violates the claimed
[0, 255] bound on elements. -/
theorem sequence_octet_hors_plage :
    (Sequence.nouvelle (some (.int 256))).valeurs = [.int 256]
    ∧ est_octet (.int 256) = false := by
  constructor
  · simp [Sequence.nouvelle, Sequence.ajoute, canonise]
  · rfl

/-- C5 (amended).  Construction yields the empty canonical state; an
append whose argument has all integer leaves in [0, 255] and all
embedded sequences already canonical preserves "every element is an
integer in [0, 255]"; and after every append the stored `longueur`
equals the number of elements (the latter unconditionally). -/
theorem ajoute_conserve_canonique :
    (∀ standard, (Sequence.nouvelle none standard).valeurs = []
      ∧ (Sequence.nouvelle none standard).longueur = 0)
    ∧ (∀ (s : Sequence) (v : Valeur),
        (∀ x ∈ s.valeurs, est_octet x = true) → entree_octets v = true →
        ∀ x ∈ (s.ajoute v).valeurs, est_octet x = true)
    ∧ (∀ (s : Sequence) (v : Valeur),
        (s.ajoute v).longueur = (s.ajoute v).valeurs.length) := by
  refine ⟨fun standard => ⟨rfl, rfl⟩, ?_, fun s v => rfl⟩
  intro s v hs hv x hx
  simp only [Sequence.ajoute, List.mem_append] at hx
  rcases hx with hx | hx
  · exact hs x hx
  · exact canonise_octets s.standard v hv x hx

/-- C5, witness: appending the byte 65 to a fresh sequence keeps every
element a canonical byte — specialised to the element 65 itself. -/
theorem ajoute_conserve_canonique_temoin : est_octet (.int 65) = true :=
  ajoute_conserve_canonique.2.1 (Sequence.nouvelle none) (.int 65)
    (by simp [Sequence.nouvelle]) (by simp [entree_octets])
    (.int 65) (by simp [Sequence.nouvelle, Sequence.ajoute, canonise])

/-- C6.  Appending in either grouping yields byte-equal sequences:
appending `a`, `b`, `c` in turn gives the same canonical byte list as
appending `a` and then the sequence built from `b` and `c`. -/
theorem ajoute_associative (standard : String) (a b c : Valeur) :
    ((((Sequence.nouvelle none standard).ajoute a).ajoute b).ajoute c).valeurs
      = (((Sequence.nouvelle none standard).ajoute a).ajoute
          (.seq ((((Sequence.nouvelle none standard).ajoute b).ajoute
            c).valeurs))).valeurs := by
  simp [Sequence.nouvelle, Sequence.ajoute, canonise, List.append_assoc]

/-- Python `==` on value lists is reflexive. -/
theorem beqListeValeurs_refl (l : List Valeur) : beqListeValeurs l l = true :=
  (beqListeValeurs_correcte l l).mpr rfl

/-- Python `==` on value lists is symmetric. -/
theorem beqListeValeurs_symm (l m : List Valeur) :
    beqListeValeurs l m = beqListeValeurs m l := by
  by_cases h : l = m
  · subst h; rfl
  · have h1 : beqListeValeurs l m ≠ true := fun hc =>
      h ((beqListeValeurs_correcte l m).mp hc)
    have h2 : beqListeValeurs m l ≠ true := fun hc =>
      h (((beqListeValeurs_correcte m l).mp hc).symm)
    rw [Bool.eq_false_iff.mpr h1, Bool.eq_false_iff.mpr h2]

/-- C7.  `egale` is reflexive, symmetric, and coercion-consistent:
comparing a sequence to a raw value gives the same result as comparing
it to the sequence constructed from that value. -/
theorem egale_proprietes :
    (∀ s : Sequence, s.egale (.seq s.valeurs) = true)
    ∧ (∀ s t : Sequence, s.egale (.seq t.valeurs) = t.egale (.seq s.valeurs))
    ∧ (∀ (s : Sequence) (v : Valeur),
        s.egale v = s.egale (.seq (Sequence.nouvelle (some v)).valeurs)) := by
  refine ⟨?_, ?_, ?_⟩
  · intro s
    simp [Sequence.egale, beqListeValeurs_refl]
  · intro s t
    simp [Sequence.egale, beqListeValeurs_symm s.valeurs t.valeurs]
  · intro s v
    cases v with
    | int n => rfl
    | str cs => rfl
    | list l => rfl
    | seq vs => simp [Sequence.egale, Sequence.nouvelle, Sequence.ajoute,
        canonise]

/-- C8, counterexample: an unsupported mode name does not raise an
`InvalidArgument` condition — `definir_mode` returns the value `False`
(no transaction, stored mode untouched). -/
theorem definir_mode_nom_inconnu_contre :
    definir_mode "VIDEOTEX" "JOURNAL" [] = ⟨false, "VIDEOTEX", []⟩ := by
  simp [definir_mode]

/-- C8 (amended).  A mode name outside {VIDEOTEX, MIXTE,
TELEINFORMATIQUE} is rejected synchronously by returning `False`, with
no transaction issued to the device and the stored mode unchanged (no
exception is raised). -/
theorem definir_mode_nom_inconnu :
    ∀ (modeCourant mode : String) (reponses : List (List Int)),
      ¬ (mode = "VIDEOTEX" ∨ mode = "MIXTE" ∨ mode = "TELEINFORMATIQUE") →
      definir_mode modeCourant mode reponses = ⟨false, modeCourant, []⟩ := by
  intro modeCourant mode reponses h
  simp [definir_mode, h]

/-- C8, witness: the amended rejection at the concrete name `BOGUS`
from stored mode MIXTE. -/
theorem definir_mode_nom_inconnu_temoin :
    definir_mode "MIXTE" "BOGUS" [[1]] = ⟨false, "MIXTE", []⟩ :=
  definir_mode_nom_inconnu "MIXTE" "BOGUS" [[1]] (by simp)

/-- The element loop of `canonise` skips a nested `Sequence` object
wherever it occurs in the list. -/
theorem canonise_boucle_omet (standard : String) (l1 l2 vs : List Valeur) :
    canonise_boucle standard (l1 ++ .seq vs :: l2)
      = canonise_boucle standard (l1 ++ l2) := by
  induction l1 with
  | nil => simp [canonise_boucle]
  | cons v reste ih => cases v <;> simp [canonise_boucle, ih]

/-- C9.  Appending a list one of whose direct elements is a `Sequence`
object silently omits that element's bytes: the result is the same as
appending the list with the `Sequence` element removed. -/
theorem ajoute_omet_sequence_imbriquee :
    ∀ (s : Sequence) (l1 l2 vs : List Valeur),
      s.ajoute (.list (l1 ++ .seq vs :: l2)) = s.ajoute (.list (l1 ++ l2)) := by
  intro s l1 l2 vs
  simp [Sequence.ajoute, canonise, canonise_boucle_omet]

/-- A single-integer `envoyer` call enqueues exactly that byte. -/
theorem commande_int (n : Int) : commande (.int n) = [.int n] := by
  simp [commande, Sequence.nouvelle, Sequence.ajoute, canonise]

/-- Every `envoyer` call made by the pixel upload loop carries exactly
one byte. -/
theorem boucle_pixels_longueur :
    ∀ (dessins octet : List Char) (compte : Nat),
      ∀ appel ∈ boucle_pixels dessins octet compte, appel.length = 1 := by
  intro dessins
  induction dessins with
  | nil =>
    intro octet compte appel h
    simp [boucle_pixels] at h
  | cons pixel reste ih =>
    intro octet compte appel h
    simp only [boucle_pixels] at h
    split at h
    · exact ih _ _ _ h
    · split at h
      · split at h
        · simp only [commande_int, List.mem_append, List.mem_cons,
            List.not_mem_nil, or_false, false_or, or_assoc] at h
          rcases h with rfl | rfl | rfl | h
          · rfl
          · rfl
          · rfl
          · exact ih _ _ _ h
        · simp only [commande_int, List.mem_append, List.mem_cons,
            List.not_mem_nil, List.nil_append, or_false, false_or,
            or_assoc] at h
          rcases h with rfl | rfl | h
          · rfl
          · rfl
          · exact ih _ _ _ h
      · split at h
        · simp only [commande_int, List.mem_append, List.mem_cons,
            List.not_mem_nil, or_false, false_or, or_assoc] at h
          rcases h with rfl | h
          · rfl
          · exact ih _ _ _ h
        · simp only [List.nil_append] at h
          exact ih _ _ _ h

/-- C10.  For both allowed palette names `G0` and `G1`, `redefinir` ends
by sending the G'1 selection bytes `[ESC, 0x29, 0x20, 0x43]` (the
`jeu == 'GO'` comparison in the source never matches), and the G'0
selection bytes `[ESC, 0x28, 0x20, 0x42]` are never sent. -/
theorem redefinir_selection_finale :
    ∀ (depuis : Char) (dessins : List Char) (jeu : String),
      jeu = "G0" ∨ jeu = "G1" →
      ((redefinir depuis dessins jeu).getLast?
        = some [.int ESC, .int 0x29, .int 0x20, .int 0x43])
      ∧ ∀ appel ∈ redefinir depuis dessins jeu,
          appel ≠ [.int ESC, .int 0x28, .int 0x20, .int 0x42] := by
  intro depuis dessins jeu hjeu
  have hGO : jeu ≠ "GO" := by rcases hjeu with rfl | rfl <;> decide
  constructor
  · simp only [redefinir, List.getLast?_concat]
    simp [selection_finale, hGO, commande, Sequence.nouvelle,
      Sequence.ajoute, canonise, canonise_boucle]
  · intro appel happ
    simp only [redefinir, List.mem_append, List.mem_singleton,
      List.mem_cons, List.not_mem_nil, or_false, false_or, or_assoc] at happ
    rcases happ with happ | happ | happ | happ | happ
    · split at happ <;>
        simp only [List.mem_singleton] at happ <;>
        subst happ <;>
        simp [commande, Sequence.nouvelle, Sequence.ajoute, canonise,
          canonise_boucle, US, ESC]
    · subst happ
      simp [commande, Sequence.nouvelle, Sequence.ajoute, canonise,
        canonise_boucle, US, ESC]
    · intro hc
      have hl := boucle_pixels_longueur dessins [] 0 appel happ
      rw [hc] at hl
      simp at hl
    · subst happ
      simp [commande, Sequence.nouvelle, Sequence.ajoute, canonise,
        canonise_boucle, US, ESC]
    · subst happ
      simp [selection_finale, hGO, commande, Sequence.nouvelle,
        Sequence.ajoute, canonise, canonise_boucle, ESC]

/-- C10, witness: the final selection of a concrete `redefinir` call
with palette name `G0` is the G'1 selection. -/
theorem redefinir_selection_finale_temoin :
    (redefinir 'A' ['1', '0', '1'] "G0").getLast?
      = some [.int ESC, .int 0x29, .int 0x20, .int 0x43] :=
  (redefinir_selection_finale 'A' ['1', '0', '1'] "G0" (Or.inl rfl)).1
